import Mathlib

/-!
# Verification of the sprite compositing engine

Shallow embedding of the compositing engine found in
`metz-sprite-engine/engine/` and `retro-rpg-sprites/engine/`:
palette resolution, mirroring, layer rasterization, z-ordering,
pixel compositing, sheet layout, and batch generation.

Pixel channels are modelled as `Nat` (the Python values are ints in
`0..255`), grids as lists of lists of cell values, and JSON mappings as
association lists looked up by first match (Python dicts have unique
keys, so first-match lookup coincides with dict indexing).
-/

namespace SpriteEngine

/-- An RGBA pixel.  PIL represents pixels as 4-tuples of ints. -/
structure Pixel where
  r : Nat
  g : Nat
  b : Nat
  a : Nat
deriving DecidableEq, Repr

/-- `TRANSPARENT = (0, 0, 0, 0)` from both compositors. -/
def TRANSPARENT : Pixel := ⟨0, 0, 0, 0⟩

/-- A cell of a template pixel grid.  Per the template JSON format a cell
is the integer `0`, JSON `null`, or a palette-key string. -/
inductive Cell where
  | zero : Cell
  | null : Cell
  | key : String → Cell
deriving DecidableEq, Repr

/-- First-match lookup in an association list; models indexing a Python
dict (`d[k]` / `k in d`), whose keys are unique. -/
def alookup {β : Type} : List (String × β) → String → Option β
  | [], _ => none
  | (k, v) :: rest, q => if k = q then some v else alookup rest q

/-- A JSON value as far as nested palettes are concerned: a hex string or
a nested mapping.  (`resolve_color` only distinguishes dicts, strings and
"anything else"; a non-dict non-string value behaves like a string that
is never returned, so these two constructors cover the palette shapes.) -/
inductive JVal where
  | str : String → JVal
  | obj : List (String × JVal) → JVal
deriving Repr

/-- Nested JSON lookup used by `resolve_color`. -/
def jlookup : List (String × JVal) → String → Option JVal
  | [], _ => none
  | (k, v) :: rest, q => if k = q then some v else jlookup rest q

/-- Split a character list at every occurrence of `c`; the list of
segments is never empty (an empty input gives one empty segment). -/
def splitCharList (c : Char) : List Char → List (List Char)
  | [] => [[]]
  | ch :: rest =>
    match splitCharList c rest with
    | [] => [[]]
    | seg :: segs =>
      if ch = c then [] :: seg :: segs else (ch :: seg) :: segs

/-- Python's `dot_key.split(".")` for the single-character separator:
`"a.b"` gives `["a", "b"]`, `""` gives `[""]`, `"a..b"` gives
`["a", "", "b"]`. -/
def splitDots (s : String) : List String :=
  (splitCharList '.' s.toList).map fun l => String.mk l

/-- `resolve_color` from `metz-sprite-engine/engine/compositor.py`:
split the dot-notation key on `"."`, walk the palette segment by
segment (`None` on a missing segment or a non-dict), and finally
return the value only if it is a string. -/
def resolve_color (palette : JVal) (dotKey : String) : Option String :=
  resolveParts palette (splitDots dotKey)
where
  /-- The `for part in parts` loop followed by the final
  `isinstance(current, str)` check. -/
  resolveParts : JVal → List String → Option String
    | JVal.str s, [] => some s
    | JVal.obj _, [] => none
    | JVal.str _, _ :: _ => none
    | JVal.obj entries, part :: rest =>
      match jlookup entries part with
      | none => none
      | some v => resolveParts v rest

/-- Segment-by-segment path lookup, the claim's description of the
resolution algorithm: each segment must index into a mapping, and a
missing segment or a non-mapping is a failure. -/
def pathLookup : JVal → List String → Option JVal
  | v, [] => some v
  | JVal.obj entries, part :: rest =>
    match jlookup entries part with
    | none => none
    | some v => pathLookup v rest
  | JVal.str _, _ :: _ => none

/-- The nested palette from the spec's examples:
`{"skin": {"base": "#F0C080"}}`. -/
def examplePalette : JVal :=
  JVal.obj [("skin", JVal.obj [("base", JVal.str "#F0C080")])]

/-- `mirror_row` from `retro-rpg-sprites/engine/mirror_util.py`:
horizontally flip a single row. -/
def mirror_row {α : Type} (row : List α) : List α := row.reverse

/-- `mirror_frame` from `retro-rpg-sprites/engine/mirror_util.py`:
flip every row of a 2D grid. -/
def mirror_frame {α : Type} (frame : List (List α)) : List (List α) :=
  frame.map mirror_row

/-- A template document (§6 of the template JSON format), restricted to
the fields the engine reads.  Absent optional fields are `none`, matching
the Python `.get(...)` defaults at each use site. -/
structure Template where
  /-- `size: [w, h]` when present. -/
  size : Option (Nat × Nat) := none
  /-- legacy `dimensions: {width, height}` fallback. -/
  dimensions : Option (Nat × Nat) := none
  /-- `template.get("mirror_right_from_left", False)`. -/
  mirror_right_from_left : Bool := false
  walk_cycle : Option (List String) := none
  /-- `z_order` when present; `template.get("z_order", 0)` defaults to 0. -/
  z_order : Option Int := none
  /-- `template.get("z_order_override", {})`. -/
  z_order_override : List (String × Int) := []
  /-- `directions`: direction → frame name → 2D grid of cells. -/
  directions : List (String × List (String × List (List Cell))) := []
deriving DecidableEq, Repr

/-- Frame-size determination shared by both `render_frame`s:
`template["size"]` if present, else `template["dimensions"]`, else an
engine default (`48×48` for Metz, `16×24` for retro). -/
def frameSize (t : Template) (defaultSize : Nat × Nat) : Nat × Nat :=
  match t.size with
  | some wh => wh
  | none =>
    match t.dimensions with
    | some wh => wh
    | none => defaultSize

/-- Metz default frame size (`width, height = 48, 48`). -/
def metzSize (t : Template) : Nat × Nat := frameSize t (48, 48)

/-- Retro default frame size (`width, height = 16, 24`). -/
def retroSize (t : Template) : Nat × Nat := frameSize t (16, 24)

/-- Parse one hexadecimal digit; `0` for a non-hex character (the engine
only ever feeds it well-formed `#RRGGBB` palette strings). -/
def hexDigit (c : Char) : Nat :=
  if '0' ≤ c ∧ c ≤ '9' then c.toNat - 48
  else if 'a' ≤ c ∧ c ≤ 'f' then c.toNat - 87
  else if 'A' ≤ c ∧ c ≤ 'F' then c.toNat - 55
  else 0

/-- `hex_to_rgba`: strip the leading `#`s, read the three two-digit hex
channel values, and return an opaque pixel. -/
def hex_to_rgba (hexStr : String) : Pixel :=
  let cs := hexStr.toList.dropWhile (· = '#')
  match cs with
  | r1 :: r2 :: g1 :: g2 :: b1 :: b2 :: _ =>
    ⟨hexDigit r1 * 16 + hexDigit r2,
     hexDigit g1 * 16 + hexDigit g2,
     hexDigit b1 * 16 + hexDigit b2, 255⟩
  | _ => ⟨0, 0, 0, 255⟩

/-- The per-cell branch of the Metz `render_frame` loop:
`value == 0 or value == "0" or value is None` yields `TRANSPARENT`,
otherwise the cell key is resolved through the master palette with
`resolve_color`, degrading to transparent on a miss.  (The colour
cache in the source is pure memoization and is semantically dropped.) -/
def cellPixelMetz (palette : JVal) (c : Cell) : Pixel :=
  match c with
  | Cell.zero => TRANSPARENT
  | Cell.null => TRANSPARENT
  | Cell.key s =>
    if s = "0" then TRANSPARENT
    else
      match resolve_color palette s with
      | none => TRANSPARENT
      | some hex => hex_to_rgba hex

/-- The per-cell branch of the retro `render_frame` loop:
`value == 0 or value == "0"` yields `TRANSPARENT`, otherwise
`palette_colors.get(value)` (a flat dict), degrading to transparent on a
miss.  A `null` cell falls through to `palette_colors.get(None)`, which
is `None` in Python, hence also transparent. -/
def cellPixelRetro (paletteColors : List (String × String)) (c : Cell) : Pixel :=
  match c with
  | Cell.zero => TRANSPARENT
  | Cell.null => TRANSPARENT
  | Cell.key s =>
    if s = "0" then TRANSPARENT
    else
      match alookup paletteColors s with
      | none => TRANSPARENT
      | some hex => hex_to_rgba hex

/-- The row width correction of both `render_frame`s: pad a short row
with `TRANSPARENT` to the declared width, trim a long row to it. -/
def widthCorrect (width : Nat) (l : List Pixel) : List Pixel :=
  if l.length < width then l ++ List.replicate (width - l.length) TRANSPARENT
  else if l.length > width then l.take width
  else l

/-- One iteration of the row loop of `render_frame`: resolve every cell,
apply the width correction, and only then (`if mirror:`) reverse. -/
def renderRow (resolveCell : Cell → Pixel) (width : Nat) (mirror : Bool)
    (row : List Cell) : List Pixel :=
  let corrected := widthCorrect width (row.map resolveCell)
  if mirror then corrected.reverse else corrected

/-- The grid part of `render_frame`: concatenate the rendered rows, pad
with `TRANSPARENT` up to `width*height`, and cut at `width*height`. -/
def renderGrid (resolveCell : Cell → Pixel) (width height : Nat)
    (mirror : Bool) (grid : List (List Cell)) : List Pixel :=
  let pixels := (grid.map (renderRow resolveCell width mirror)).flatten
  let total := width * height
  (pixels ++ List.replicate (total - pixels.length) TRANSPARENT).take total

/-- Source-direction substitution of both `render_frame`s: direction
`"right"` with `mirror_right_from_left` set reads `"left"` and marks the
frame mirrored. -/
def sourceDirection (t : Template) (direction : String) : String × Bool :=
  if direction = "right" ∧ t.mirror_right_from_left then ("left", true)
  else (direction, false)

/-- `render_frame` shared pipeline: a missing source direction or frame
name yields a fully transparent `width*height` buffer, otherwise the
grid is rendered row by row. -/
def renderFrameWith (resolveCell : Cell → Pixel) (t : Template)
    (width height : Nat) (direction frameName : String) : List Pixel :=
  let sd := sourceDirection t direction
  match alookup t.directions sd.1 with
  | none => List.replicate (width * height) TRANSPARENT
  | some frames =>
    match alookup frames frameName with
    | none => List.replicate (width * height) TRANSPARENT
    | some grid => renderGrid resolveCell width height sd.2 grid

/-- `render_frame` from `metz-sprite-engine/engine/compositor.py`. -/
def renderFrameMetz (t : Template) (palette : JVal)
    (direction frameName : String) : List Pixel :=
  renderFrameWith (cellPixelMetz palette) t (metzSize t).1 (metzSize t).2
    direction frameName

/-- `render_frame` from `retro-rpg-sprites/engine/compositor.py`. -/
def renderFrameRetro (t : Template) (paletteColors : List (String × String))
    (direction frameName : String) : List Pixel :=
  renderFrameWith (cellPixelRetro paletteColors) t (retroSize t).1
    (retroSize t).2 direction frameName

/-- The row pipeline in the order asserted by the spec sentence
"Mirrored frames have each resolved row reversed *before* the width
correction": reverse first, width-correct second.  Named after the claim
it formalises; compared against `renderRow`, which follows the source. -/
def renderRowSpecC1 (resolveCell : Cell → Pixel) (width : Nat) (mirror : Bool)
    (row : List Cell) : List Pixel :=
  let resolved := row.map resolveCell
  widthCorrect width (if mirror then resolved.reverse else resolved)

/-- `render_frame` (retro variant) with the claim's row order
(`renderRowSpecC1`) substituted for the source's row order. -/
def renderFrameRetroSpecC1 (t : Template)
    (paletteColors : List (String × String))
    (direction frameName : String) : List Pixel :=
  let sd := sourceDirection t direction
  let width := (retroSize t).1
  let height := (retroSize t).2
  match alookup t.directions sd.1 with
  | none => List.replicate (width * height) TRANSPARENT
  | some frames =>
    match alookup frames frameName with
    | none => List.replicate (width * height) TRANSPARENT
    | some grid =>
      let pixels := (grid.map (renderRowSpecC1 (cellPixelRetro paletteColors)
        width sd.2)).flatten
      let total := width * height
      (pixels ++ List.replicate (total - pixels.length) TRANSPARENT).take total

/-- Concrete mirrored template for settling C1: declared size 2×1, a
single left row `[key "k"]` that is shorter than the declared width. -/
def templateC1 : Template :=
  { size := some (2, 1)
    mirror_right_from_left := true
    directions := [("left", [("idle", [[Cell.key "k"]])])] }

/-- Flat palette mapping `"k"` to red, for the C1 counterexample. -/
def paletteC1 : List (String × String) := [("k", "#FF0000")]

/-- `get_z_order` from `metz-sprite-engine/engine/compositor.py`: the
`z_order_override` entry for the direction if present, else the base
`z_order` field, else `0`. -/
def get_z_order (t : Template) (direction : String) : Int :=
  match alookup t.z_order_override direction with
  | some v => v
  | none => t.z_order.getD 0

/-- The layer sort of `composite_loadout`:
`sorted(all_templates, key=lambda t: get_z_order(t, direction))`.
Python's `sorted` is a stable ascending sort by key; insertion sort that
inserts an element before the first strictly-later position realises
exactly that output. -/
def sortTemplatesByZ (direction : String) (ts : List Template) : List Template :=
  letI : DecidableRel (fun a b : Template =>
      get_z_order a direction ≤ get_z_order b direction) :=
    fun _ _ => Int.decLe _ _
  List.insertionSort
    (fun a b => get_z_order a direction ≤ get_z_order b direction) ts

/-- `SHIFTFORDIV255(a) = ((a >> 8) + a) >> 8`, Pillow's two-shift
approximation of division by 255 (`src/libImaging/AlphaComposite.c`). -/
def shiftForDiv255 (a : Nat) : Nat := ((a >>> 8) + a) >>> 8

/-- One pixel of `PIL.Image.alpha_composite` (Porter-Duff *over*,
Pillow's integer implementation in `src/libImaging/AlphaComposite.c`
with `PRECISION_BITS = 7`): a fully transparent source copies the
destination; otherwise the channels are blended with 7 extra bits of
precision.  `dst` is the accumulated canvas, `src` the layer painted
over it. -/
def alphaCompositePixel (dst src : Pixel) : Pixel :=
  if src.a = 0 then dst
  else
    let blend := dst.a * (255 - src.a)
    let outa255 := src.a * 255 + blend
    let coef1 := src.a * 255 * 255 * 128 / outa255
    let coef2 := 255 * 128 - coef1
    ⟨shiftForDiv255 (src.r * coef1 + dst.r * coef2 + 16384) >>> 7,
     shiftForDiv255 (src.g * coef1 + dst.g * coef2 + 16384) >>> 7,
     shiftForDiv255 (src.b * coef1 + dst.b * coef2 + 16384) >>> 7,
     shiftForDiv255 (outa255 + 128)⟩

/-- `Image.alpha_composite(composite, layer_img)` on flat pixel buffers
of equal size: pixelwise *over*.  This is the compositing step of both
`composite_loadout` and `composite_npc`. -/
def alphaComposite (canvas layer : List Pixel) : List Pixel :=
  List.zipWith alphaCompositePixel canvas layer

/-- A pixel as the engine produces it: channels in `0..255` and — per
the engine's "no partial alpha" invariant — alpha either 0 or 255. -/
def PixelOk (p : Pixel) : Prop :=
  p.r ≤ 255 ∧ p.g ≤ 255 ∧ p.b ≤ 255 ∧ (p.a = 0 ∨ p.a = 255)

instance (p : Pixel) : Decidable (PixelOk p) := by
  unfold PixelOk; infer_instance

/-- `_DIRECTION_ORDER = ("down", "left", "right", "up")` from both
compositors and from `metz-sprite-engine/engine/sheet_exporter.py`. -/
def DIRECTION_ORDER : List String := ["down", "left", "right", "up"]

/-- `DIRECTIONS = ["down", "left", "up", "right"]` from
`retro-rpg-sprites/engine/sheet_exporter.py` (line 38), imported by
`batch_generator.py` and used by its `_create_spritesheet`. -/
def DIRECTIONS : List String := ["down", "left", "up", "right"]

/-- The cell grid of `export_spritesheet` (both compositors): the pastes
land in disjoint `frame_w × frame_h` cells, so the sheet is determined
cell-wise; grid row `r` holds the frames of `_DIRECTION_ORDER[r]`
(`frames_dict.get(direction, [])`), column `c` its `c`-th frame. -/
def exportSheetCell {α : Type} (framesDict : List (String × List α))
    (r c : Nat) : Option α :=
  (DIRECTION_ORDER.get? r).bind fun d =>
    ((alookup framesDict d).getD []).get? c

/-- The cell grid of `_create_spritesheet` from
`retro-rpg-sprites/engine/batch_generator.py`: row `r` holds the frames
of `DIRECTIONS[r]` (a direction missing from the dict leaves the row
blank via `continue`), clamped to `num_cols = 4` columns by the
`col_idx >= num_cols: break`. -/
def batchSheetCell {α : Type} (framesDict : List (String × List α))
    (r c : Nat) : Option α :=
  (DIRECTIONS.get? r).bind fun d =>
    (alookup framesDict d).bind fun frames => (frames.take 4).get? c

/-- The batch sheet layout the claim asserts: identical to
`batchSheetCell` but with the compositor row order
`down, left, right, up` in place of `DIRECTIONS`. -/
def batchSheetCellClaimedOrder {α : Type} (framesDict : List (String × List α))
    (r c : Nat) : Option α :=
  (DIRECTION_ORDER.get? r).bind fun d =>
    (alookup framesDict d).bind fun frames => (frames.take 4).get? c

/-- Four distinguishable one-frame directions for settling C7; the
frames are bare markers since only the layout is at stake. -/
def framesDictC7 : List (String × List Nat) :=
  [("down", [0]), ("left", [1]), ("right", [2]), ("up", [3])]

/-- State of the seeded pseudorandom source.  `random.Random(seed)` is a
deterministic generator whose draws are a pure function of the seed and
of how many draws were made; the claims settled against it (C8–C10)
depend only on that determinism, not on the distribution, so the
Mersenne Twister is modelled by a 64-bit linear congruential step. -/
structure Rng where
  state : Nat
deriving DecidableEq, Repr

/-- `random.Random(seed)`: fresh generator state from the seed. -/
def rngOfSeed (seed : Nat) : Rng := ⟨seed % 18446744073709551616⟩

/-- One draw from the generator. -/
def rngNext (r : Rng) : Nat × Rng :=
  let s := (6364136223846793005 * r.state + 1442695040888963407) %
    18446744073709551616
  (s, ⟨s⟩)

/-- `rng.choice(seq)`: draw, index `seq` uniformly; Python raises
`IndexError` on an empty sequence, modelled by `none`. -/
def rngChoice {α : Type} (l : List α) (r : Rng) : Option (α × Rng) :=
  let kr := rngNext r
  if h : l.length = 0 then none
  else some (l.get ⟨kr.1 % l.length, Nat.mod_lt _ (Nat.pos_of_ne_zero h)⟩, kr.2)

/-- A layer of an NPC definition: `{template, palette, z_order}`. -/
structure Layer where
  template : String
  palette : String
  z_order : Int
deriving DecidableEq, Repr

/-- The `metadata` block of a generated NPC (the fields recording the
sampled choices; constant fields like `tags` are omitted). -/
structure NpcMeta where
  body : String
  clothing : String
  hair : String
  accessory : Option String
  skin_palette : String
  hair_palette : String
  clothing_palette : String
  /-- `accessory_palette if accessory else None`. -/
  accessory_palette : Option String
deriving DecidableEq, Repr

/-- A generated NPC definition.  `display_name` (derived from `npc_id`)
and the constant `animation` block are omitted from the model. -/
structure Npc where
  npc_id : String
  sprite_size : Nat × Nat
  layers : List Layer
  metadata : NpcMeta
deriving DecidableEq, Repr

/-- A generator configuration.  Every field models the corresponding
`generator_config.get(key, default)`: `none` means the key is absent and
the source's default applies. -/
structure GeneratorConfig where
  generator_id : Option String := none
  base_sprite_size : Option (Nat × Nat) := none
  body_templates : Option (List String) := none
  clothing_options : Option (List String) := none
  hair_options : Option (List String) := none
  accessory_options : Option (List (Option String)) := none
  skin_palettes : Option (List String) := none
  hair_palettes : Option (List String) := none
  clothing_palettes : Option (List String) := none
  accessory_palettes : Option (List String) := none
deriving Repr

/-- `f"{gen_id}_{_batch_counter:03d}"`: the counter zero-padded to at
least three digits. -/
def padZeros3 (n : Nat) : String :=
  let s := toString n
  String.mk (List.replicate (3 - s.length) '0') ++ s

/-- The NPC-definition dictionary `generate_random_npc` builds once its
eight samples are drawn and the batch counter has been incremented to
`counter`: the id is `f"{gen_id}_{counter:03d}"`, the layers are body,
clothing, hair (z-orders 0, 1, 2) plus the accessory (z-order 3) only
when one was selected. -/
def buildNpc (cfg : GeneratorConfig) (counter : Nat)
    (body clothing hair : String) (accessory : Option String)
    (skinPalette hairPalette clothingPalette accessoryPalette : String) : Npc :=
  { npc_id := cfg.generator_id.getD "npc" ++ "_" ++ padZeros3 counter
    sprite_size := cfg.base_sprite_size.getD (16, 24)
    layers := [⟨body, skinPalette, 0⟩, ⟨clothing, clothingPalette, 1⟩,
      ⟨hair, hairPalette, 2⟩] ++
      (match accessory with
       | some acc => [⟨acc, accessoryPalette, 3⟩]
       | none => [])
    metadata := ⟨body, clothing, hair, accessory, skinPalette, hairPalette,
      clothingPalette,
      match accessory with | some _ => some accessoryPalette | none => none⟩ }

/-- `generate_random_npc` from
`retro-rpg-sprites/engine/batch_generator.py`.  The global
`_batch_counter` is threaded explicitly (incremented before the id is
formatted); the eight `rng.choice` draws happen in source order.
`none` models the `IndexError` a `choice` from an empty pool raises. -/
def generate_random_npc (cfg : GeneratorConfig) (rng : Rng) (counter : Nat) :
    Option (Npc × Rng × Nat) := do
  let (body, rng) ← rngChoice (cfg.body_templates.getD ["body_medium"]) rng
  let (clothing, rng) ← rngChoice (cfg.clothing_options.getD ["tunic_simple"]) rng
  let (hair, rng) ← rngChoice (cfg.hair_options.getD ["hair_short"]) rng
  let (accessory, rng) ← rngChoice (cfg.accessory_options.getD [none]) rng
  let (skinPalette, rng) ← rngChoice (cfg.skin_palettes.getD ["skin_light"]) rng
  let (hairPalette, rng) ← rngChoice (cfg.hair_palettes.getD ["hair_brown"]) rng
  let (clothingPalette, rng) ←
    rngChoice (cfg.clothing_palettes.getD ["clothing_brown"]) rng
  let (accessoryPalette, rng) ←
    rngChoice (cfg.accessory_palettes.getD ["accessory_gold"]) rng
  pure (buildNpc cfg (counter + 1) body clothing hair accessory skinPalette
    hairPalette clothingPalette accessoryPalette, rng, counter + 1)

/-- The duplicate-detection signature of `generate_batch`:
`"|".join(f"{template}:{palette}" for each layer)`. -/
def npcSignature (npc : Npc) : String :=
  String.intercalate "|" (npc.layers.map fun l => l.template ++ ":" ++ l.palette)

/-- The `while len(npcs) < count and attempts < max_attempts` loop of
`generate_batch`.  `fuel` is `max_attempts - attempts`, so the loop is
structurally bounded exactly as the source is; `counter` is the global
`_batch_counter`; `seen` accumulates the signature set.  Returns the
generated list, the unused fuel and the final counter. -/
def generateBatchLoop (cfg : GeneratorConfig) (count : Nat) :
    Nat → Rng → Nat → List Npc → List String →
    Option (List Npc × Nat × Nat)
  | 0, _, counter, npcs, _ => some (npcs, 0, counter)
  | fuel + 1, rng, counter, npcs, seen =>
    if npcs.length < count then
      match generate_random_npc cfg rng counter with
      | none => none
      | some (npc, rng', counter') =>
        if npcSignature npc ∈ seen then
          generateBatchLoop cfg count fuel rng' (counter' - 1) npcs seen
        else
          generateBatchLoop cfg count fuel rng' counter' (npcs ++ [npc])
            (npcSignature npc :: seen)
    else some (npcs, fuel + 1, counter)

/-- `generate_batch` with the process globals made explicit: the run
returns the NPC list and the number of attempts made
(`count*10 - fuel left`). -/
def generateBatchRun (cfg : GeneratorConfig) (count : Nat) (seed : Nat) :
    Option (List Npc × Nat) :=
  (generateBatchLoop cfg count (count * 10) (rngOfSeed seed) 0 [] []).map
    fun r => (r.1, count * 10 - r.2.1)

/-- `generate_batch` from `retro-rpg-sprites/engine/batch_generator.py`,
including the state of the module-global `_batch_counter` *before* the
call: the function's first action is `_batch_counter = 0`, so the
pre-call value `preCounter` is discarded. -/
def generate_batch (preCounter : Nat) (cfg : GeneratorConfig) (count : Nat)
    (seed : Nat) : Option (List Npc) :=
  let _ := preCounter
  (generateBatchRun cfg count seed).map Prod.fst

/-- Every effective sampling pool of `generate_random_npc` (after the
`.get` defaults) is non-empty, so no `rng.choice` can raise. -/
def poolsNonempty (cfg : GeneratorConfig) : Prop :=
  (cfg.body_templates.getD ["body_medium"]) ≠ [] ∧
  (cfg.clothing_options.getD ["tunic_simple"]) ≠ [] ∧
  (cfg.hair_options.getD ["hair_short"]) ≠ [] ∧
  (cfg.accessory_options.getD [none]) ≠ [] ∧
  (cfg.skin_palettes.getD ["skin_light"]) ≠ [] ∧
  (cfg.hair_palettes.getD ["hair_brown"]) ≠ [] ∧
  (cfg.clothing_palettes.getD ["clothing_brown"]) ≠ [] ∧
  (cfg.accessory_palettes.getD ["accessory_gold"]) ≠ []

instance (cfg : GeneratorConfig) : Decidable (poolsNonempty cfg) := by
  unfold poolsNonempty; infer_instance

/-- A generator config with every key absent, exercising all the
source's defaults; used as concrete input for witnesses. -/
def cfg0 : GeneratorConfig := {}

/-- The NPC that `generate_batch(cfg0, count=1, seed=42)` produces in
this model: every pool is the one-element default, so the samples are
forced and the single id is `npc_001`. -/
def npc42 : Npc :=
  ⟨"npc_001", (16, 24),
   [⟨"body_medium", "skin_light", 0⟩, ⟨"tunic_simple", "clothing_brown", 1⟩,
    ⟨"hair_short", "hair_brown", 2⟩],
   ⟨"body_medium", "tunic_simple", "hair_short", none, "skin_light",
    "hair_brown", "clothing_brown", none⟩⟩

/-- The template of the spec's z-order example: `z_order = 2` with
`z_order_override = {"up": 5}`. -/
def tC5 : Template :=
  { z_order := some 2, z_order_override := [("up", 5)] }

/-- Master-palette version of the C1 palette, mapping the dot-free key
`"k"` to red. -/
def paletteC1Metz : JVal := JVal.obj [("k", JVal.str "#FF0000")]

/-! ## Theorems -/

theorem resolveParts_eq_pathLookup (v : JVal) (parts : List String) :
    resolve_color.resolveParts v parts =
      (match pathLookup v parts with
       | some (JVal.str s) => some s
       | _ => none) := by
  induction parts generalizing v with
  | nil => cases v <;> simp [resolve_color.resolveParts, pathLookup]
  | cons p rest ih =>
    cases v with
    | str s => simp [resolve_color.resolveParts, pathLookup]
    | obj entries =>
      simp only [resolve_color.resolveParts, pathLookup]
      cases jlookup entries p with
      | none => rfl
      | some w => exact ih w

/-- C4: `resolve_color` splits the key on `"."` and indexes segment by
segment; a missing segment or a non-mapping yields `None` (the function
is total — it never raises); when every segment resolves to a final
string, that stored string is returned in full.  The conjuncts replay
the spec's three examples on the nested palette
`{"skin": {"base": "#F0C080"}}`. -/
theorem claim_C4 (palette : JVal) (key : String) :
    resolve_color palette key =
      (match pathLookup palette (splitDots key) with
       | some (JVal.str s) => some s
       | _ => none) ∧
    resolve_color examplePalette "skin.base" = some "#F0C080" ∧
    resolve_color examplePalette "skin.missing" = none ∧
    resolve_color examplePalette "missing.base" = none :=
  ⟨resolveParts_eq_pathLookup palette (splitDots key),
   by decide, by decide, by decide⟩

/-- C6: `mirror_frame` reverses each row, preserving the row count and
every row's column count, and is an involution. -/
theorem claim_C6 {α : Type} (g : List (List α)) :
    mirror_frame (mirror_frame g) = g ∧
    (mirror_frame g).length = g.length ∧
    (mirror_frame g).map List.length = g.map List.length := by
  refine ⟨?_, by simp [mirror_frame], ?_⟩
  · simp [mirror_frame, mirror_row, List.map_map, Function.comp_def]
  · simp [mirror_frame, mirror_row, List.map_map, Function.comp_def]

theorem length_widthCorrect (width : Nat) (l : List Pixel) :
    (widthCorrect width l).length = width := by
  unfold widthCorrect
  split
  · simp; omega
  · split
    · simp; omega
    · omega

theorem length_renderRow (f : Cell → Pixel) (width : Nat) (mirror : Bool)
    (row : List Cell) : (renderRow f width mirror row).length = width := by
  unfold renderRow
  split <;> simp [length_widthCorrect]

theorem length_renderGrid (f : Cell → Pixel) (width height : Nat)
    (mirror : Bool) (grid : List (List Cell)) :
    (renderGrid f width height mirror grid).length = width * height := by
  unfold renderGrid
  simp only [List.length_take, List.length_append, List.length_replicate]
  omega

theorem length_renderFrameWith (f : Cell → Pixel) (t : Template)
    (width height : Nat) (d fn : String) :
    (renderFrameWith f t width height d fn).length = width * height := by
  unfold renderFrameWith
  cases h : alookup t.directions (sourceDirection t d).1 with
  | none => simp [h]
  | some frames =>
    cases h2 : alookup frames fn with
    | none => simp [h, h2]
    | some grid => simp [h, h2, length_renderGrid]

/-- C2: for every template, palette, direction and frame name — whatever
the shape of the stored grid — `render_frame` returns a buffer of
exactly `width*height` pixels, in both engine variants. -/
theorem claim_C2 (t : Template) (palette : JVal)
    (colors : List (String × String)) (d fn : String) :
    (renderFrameMetz t palette d fn).length = (metzSize t).1 * (metzSize t).2 ∧
    (renderFrameRetro t colors d fn).length = (retroSize t).1 * (retroSize t).2 :=
  ⟨length_renderFrameWith .., length_renderFrameWith ..⟩

theorem flatten_slice {β : Type} (width : Nat) (g : List (List β))
    (hw : ∀ r ∈ g, r.length = width) :
    ∀ i (hi : i < g.length),
      ((g.flatten).drop (i * width)).take width = g.get ⟨i, hi⟩ := by
  induction g with
  | nil => intro i hi; cases hi
  | cons row rest ih =>
    intro i hi
    have hrow : row.length = width := hw row (List.mem_cons_self _ _)
    cases i with
    | zero =>
      simp only [Nat.zero_mul, List.drop_zero, List.flatten_cons, List.get]
      rw [← hrow, List.take_left]
    | succ i =>
      have hstep : (i + 1) * width = row.length + i * width := by
        rw [hrow]; ring
      simp only [List.flatten_cons, hstep, List.get]
      rw [← List.drop_drop, List.drop_left]
      exact ih (fun r hr => hw r (List.mem_cons_of_mem _ hr)) i
        (Nat.lt_of_succ_lt_succ hi)

theorem length_flatten_const {β : Type} (width : Nat) (g : List (List β))
    (hw : ∀ r ∈ g, r.length = width) : g.flatten.length = g.length * width := by
  induction g with
  | nil => simp
  | cons row rest ih =>
    have hrow : row.length = width := hw row (List.mem_cons_self _ _)
    simp only [List.flatten_cons, List.length_append, List.length_cons, hrow,
      ih (fun r hr => hw r (List.mem_cons_of_mem _ hr))]
    ring

theorem renderGrid_mirror_row (f : Cell → Pixel) (width height : Nat)
    (grid : List (List Cell)) (i : Nat) (hi : i < grid.length)
    (hih : i < height) :
    ((renderGrid f width height true grid).drop (i * width)).take width
      = (widthCorrect width ((grid.get ⟨i, hi⟩).map f)).reverse := by
  unfold renderGrid
  have hw : ∀ r ∈ grid.map (renderRow f width true), r.length = width := by
    intro r hr
    obtain ⟨row, _, rfl⟩ := List.mem_map.mp hr
    exact length_renderRow ..
  have hflat : ((grid.map (renderRow f width true)).flatten).length
      = grid.length * width := by
    rw [length_flatten_const width _ hw]; simp
  have hbound : i * width + width ≤ grid.length * width := by
    have : i + 1 ≤ grid.length := hi
    calc i * width + width = (i + 1) * width := by ring
    _ ≤ grid.length * width := Nat.mul_le_mul_right _ this
  have hbound2 : i * width + width ≤ width * height := by
    have : i + 1 ≤ height := hih
    calc i * width + width = width * (i + 1) := by ring
    _ ≤ width * height := Nat.mul_le_mul_left _ this
  rw [List.drop_take, List.take_take, min_eq_left (by omega)]
  rw [List.drop_append_of_le_length (by omega)]
  rw [List.take_append_of_le_length (by rw [List.length_drop]; omega)]
  rw [flatten_slice width _ hw i (by simpa using hi)]
  simp only [List.get_eq_getElem, List.getElem_map]
  rfl

/-- C1 amended: in a mirrored frame each output row of the buffer is
the reversal applied *after* the width correction — the buffer slice
`[i*width, i*width+width)` equals
`reverse (widthCorrect (resolved row i))` — for both engine variants.
(The claim as frozen asserts the opposite order, reversal before the
width correction; `claim_C1_counterexample` refutes that.) -/
theorem claim_C1_amended (t : Template) (palette : JVal)
    (colors : List (String × String)) (frameName : String)
    (frames : List (String × List (List Cell))) (grid : List (List Cell))
    (i : Nat) (hm : t.mirror_right_from_left = true)
    (hdir : alookup t.directions "left" = some frames)
    (hframe : alookup frames frameName = some grid)
    (hi : i < grid.length) (hr : i < (retroSize t).2)
    (hm2 : i < (metzSize t).2) :
    ((renderFrameRetro t colors "right" frameName).drop
        (i * (retroSize t).1)).take (retroSize t).1
      = (widthCorrect (retroSize t).1
          ((grid.get ⟨i, hi⟩).map (cellPixelRetro colors))).reverse ∧
    ((renderFrameMetz t palette "right" frameName).drop
        (i * (metzSize t).1)).take (metzSize t).1
      = (widthCorrect (metzSize t).1
          ((grid.get ⟨i, hi⟩).map (cellPixelMetz palette))).reverse := by
  have hsd : sourceDirection t "right" = ("left", true) := by
    simp [sourceDirection, hm]
  constructor
  · simp only [renderFrameRetro, renderFrameWith, hsd, hdir, hframe]
    exact renderGrid_mirror_row _ _ _ _ _ hi hr
  · simp only [renderFrameMetz, renderFrameWith, hsd, hdir, hframe]
    exact renderGrid_mirror_row _ _ _ _ _ hi hm2

/-- C1 counterexample: on a mirrored frame whose single row (one cell,
resolving to opaque red) is shorter than the declared width 2, the
code's output `[transparent, red]` (pad first, then reverse) differs
from the claimed order's output `[red, transparent]` (reverse first,
then pad): the claim as stated is false. -/
theorem claim_C1_counterexample :
    renderFrameRetro templateC1 paletteC1 "right" "idle"
        = [TRANSPARENT, ⟨255, 0, 0, 255⟩] ∧
    renderFrameRetroSpecC1 templateC1 paletteC1 "right" "idle"
        = [⟨255, 0, 0, 255⟩, TRANSPARENT] ∧
    renderFrameRetro templateC1 paletteC1 "right" "idle"
        ≠ renderFrameRetroSpecC1 templateC1 paletteC1 "right" "idle" := by
  refine ⟨by decide, by decide, by decide⟩

/-- Witness for `claim_C1_amended` at the concrete mirrored template
`templateC1`, row 0. -/
theorem claim_C1_witness :
    ((renderFrameRetro templateC1 paletteC1 "right" "idle").drop
        (0 * (retroSize templateC1).1)).take (retroSize templateC1).1
      = (widthCorrect (retroSize templateC1).1
          (([[Cell.key "k"]].get ⟨0, Nat.zero_lt_one⟩).map
            (cellPixelRetro paletteC1))).reverse ∧
    ((renderFrameMetz templateC1 paletteC1Metz "right" "idle").drop
        (0 * (metzSize templateC1).1)).take (metzSize templateC1).1
      = (widthCorrect (metzSize templateC1).1
          (([[Cell.key "k"]].get ⟨0, Nat.zero_lt_one⟩).map
            (cellPixelMetz paletteC1Metz))).reverse :=
  claim_C1_amended templateC1 paletteC1Metz paletteC1 "idle"
    [("idle", [[Cell.key "k"]])] [[Cell.key "k"]] 0 (by decide) (by decide)
    (by decide) (by decide) (by decide) (by decide)

theorem pixel_over_opaque (dst src : Pixel) (hr : src.r ≤ 255)
    (hg : src.g ≤ 255) (hb : src.b ≤ 255) (ha : src.a = 255) :
    alphaCompositePixel dst src = src := by
  obtain ⟨sr, sg, sb, sa⟩ := src
  obtain ⟨dr, dg, db, da⟩ := dst
  simp only at hr hg hb ha
  subst ha
  simp only [alphaCompositePixel]
  rw [if_neg (by omega)]
  simp only [Pixel.mk.injEq, shiftForDiv255, Nat.shiftRight_eq_div_pow]
  norm_num
  refine ⟨?_, ?_, ?_⟩ <;> omega

theorem pixel_over_transparent (dst src : Pixel) (ha : src.a = 0) :
    alphaCompositePixel dst src = dst := by
  unfold alphaCompositePixel
  rw [if_pos ha]

/-- C3: on buffers whose pixels are all fully opaque or fully
transparent, `Image.alpha_composite(canvas, layer)` is pointwise
paint-over-if-opaque — at every position the result is the layer's
pixel when the layer pixel is opaque, and the canvas's original pixel
when the layer pixel is transparent. -/
theorem claim_C3 (canvas layer : List Pixel)
    (_hc : ∀ p ∈ canvas, PixelOk p) (hl : ∀ p ∈ layer, PixelOk p)
    (i : Nat) (h1 : i < canvas.length) (h2 : i < layer.length) :
    (alphaComposite canvas layer)[i]? =
      some (if layer[i].a = 255 then layer[i] else canvas[i]) := by
  have hlen : i < (alphaComposite canvas layer).length := by
    simp only [alphaComposite, List.length_zipWith, lt_min_iff]
    exact ⟨h1, h2⟩
  rw [List.getElem?_eq_getElem hlen]
  simp only [alphaComposite, List.getElem_zipWith]
  obtain ⟨hr, hg, hb, ha⟩ := hl (layer[i]) (List.getElem_mem h2)
  rcases ha with ha | ha
  · rw [if_neg (by omega), pixel_over_transparent _ _ ha]
  · rw [if_pos ha, pixel_over_opaque _ _ hr hg hb ha]

/-- Witness for `claim_C3` on concrete one-pixel buffers: an opaque red
layer pixel over an opaque green canvas pixel. -/
theorem claim_C3_witness :
    (alphaComposite [⟨0, 255, 0, 255⟩] [⟨255, 0, 0, 255⟩])[0]? =
      some (if (⟨255, 0, 0, 255⟩ : Pixel).a = 255
        then (⟨255, 0, 0, 255⟩ : Pixel) else ⟨0, 255, 0, 255⟩) := by
  have h := claim_C3 [⟨0, 255, 0, 255⟩] [⟨255, 0, 0, 255⟩]
    (by decide) (by decide) 0 (by decide) (by decide)
  simpa using h

theorem filter_orderedInsert_key (Z : Template → Int) (k : Int) (a : Template)
    (l : List Template) :
    letI : DecidableRel (fun x y : Template => Z x ≤ Z y) :=
      fun _ _ => Int.decLe _ _
    (List.orderedInsert (fun x y => Z x ≤ Z y) a l).filter (fun x => Z x = k)
      = (if Z a = k then a :: l.filter (fun x => Z x = k)
         else l.filter (fun x => Z x = k)) := by
  induction l with
  | nil =>
    by_cases hak : Z a = k <;>
      simp [List.orderedInsert, List.filter, hak]
  | cons b l ih =>
    simp only [List.orderedInsert]
    by_cases hab : Z a ≤ Z b
    · rw [if_pos hab]
      by_cases hak : Z a = k <;> simp [List.filter_cons, hak]
    · rw [if_neg hab]
      by_cases hbk : Z b = k
      · have hak : ¬ Z a = k := by omega
        simp [List.filter_cons, hbk, ih, hak]
      · by_cases hak : Z a = k <;> simp [List.filter_cons, hbk, ih, hak]

theorem filter_insertionSort_key (Z : Template → Int) (k : Int)
    (l : List Template) :
    letI : DecidableRel (fun x y : Template => Z x ≤ Z y) :=
      fun _ _ => Int.decLe _ _
    (List.insertionSort (fun x y => Z x ≤ Z y) l).filter (fun x => Z x = k)
      = l.filter (fun x => Z x = k) := by
  induction l with
  | nil => rfl
  | cons a l ih =>
    simp only [List.insertionSort]
    rw [filter_orderedInsert_key Z k a]
    by_cases hak : Z a = k <;> simp [List.filter_cons, hak, ih]

/-- C5: the effective z-order is `z_order_override[direction]` when the
override mapping has the direction, else the `z_order` field, else 0;
and the compositor's layer sort orders templates by ascending effective
z-order, permutes the input, and keeps equal-key layers in their
original relative order (stability, stated as: filtering the sorted
list to any fixed key gives exactly the input filtered to that key). -/
theorem claim_C5 (t : Template) (d : String) (ts : List Template) :
    (∀ v, alookup t.z_order_override d = some v → get_z_order t d = v) ∧
    (alookup t.z_order_override d = none →
      ∀ z, t.z_order = some z → get_z_order t d = z) ∧
    (alookup t.z_order_override d = none → t.z_order = none →
      get_z_order t d = 0) ∧
    List.Sorted (fun a b => get_z_order a d ≤ get_z_order b d)
      (sortTemplatesByZ d ts) ∧
    (sortTemplatesByZ d ts).Perm ts ∧
    (∀ k : Int, (sortTemplatesByZ d ts).filter (fun x => get_z_order x d = k)
      = ts.filter (fun x => get_z_order x d = k)) := by
  refine ⟨?_, ?_, ?_, ?_, ?_, ?_⟩
  · intro v hv; simp [get_z_order, hv]
  · intro hn z hz; simp [get_z_order, hn, hz]
  · intro hn hz; simp [get_z_order, hn, hz]
  · letI : DecidableRel (fun a b : Template =>
        get_z_order a d ≤ get_z_order b d) := fun _ _ => Int.decLe _ _
    haveI : IsTotal Template (fun a b =>
        get_z_order a d ≤ get_z_order b d) := ⟨fun a b => le_total _ _⟩
    haveI : IsTrans Template (fun a b =>
        get_z_order a d ≤ get_z_order b d) :=
      ⟨fun _ _ _ hab hbc => le_trans hab hbc⟩
    exact List.sorted_insertionSort _ ts
  · letI : DecidableRel (fun a b : Template =>
        get_z_order a d ≤ get_z_order b d) := fun _ _ => Int.decLe _ _
    exact List.perm_insertionSort _ ts
  · intro k
    exact filter_insertionSort_key (fun x => get_z_order x d) k ts

/-- Witness for `claim_C5`: the spec's example template with
`z_order = 2` and `z_order_override = {"up": 5}` resolves to 5 facing
up and 2 facing down. -/
theorem claim_C5_witness :
    get_z_order tC5 "up" = 5 ∧ get_z_order tC5 "down" = 2 :=
  ⟨(claim_C5 tC5 "up" []).1 5 (by decide),
   (claim_C5 tC5 "down" []).2.1 (by decide) 2 (by decide)⟩

/-- C7 counterexample: on a frames dict with one distinguishable frame
per direction, the batch path `_create_spritesheet` places the `"up"`
frame (marker 3) in sheet row 2, where the claim's asserted row order
`down, left, right, up` predicts the `"right"` frame (marker 2): the
claim is false for the batch-generated sheets. -/
theorem claim_C7_counterexample :
    batchSheetCell framesDictC7 2 0 = some 3 ∧
    batchSheetCellClaimedOrder framesDictC7 2 0 = some 2 ∧
    batchSheetCell framesDictC7 2 0 ≠ batchSheetCellClaimedOrder framesDictC7 2 0 :=
  ⟨by decide, by decide, by decide⟩

/-- C7 amended: the compositor `export_spritesheet` paths lay out sheet
rows in the order `down, left, right, up`, but the batch
`_create_spritesheet` path lays them out in the order
`down, left, up, right` (rows 2 and 3 swapped), clamped to 4 columns. -/
theorem claim_C7_amended {α : Type} (fd : List (String × List α)) (c : Nat) :
    exportSheetCell fd 0 c = ((alookup fd "down").getD []).get? c ∧
    exportSheetCell fd 1 c = ((alookup fd "left").getD []).get? c ∧
    exportSheetCell fd 2 c = ((alookup fd "right").getD []).get? c ∧
    exportSheetCell fd 3 c = ((alookup fd "up").getD []).get? c ∧
    batchSheetCell fd 0 c = ((alookup fd "down").bind fun fs => (fs.take 4).get? c) ∧
    batchSheetCell fd 1 c = ((alookup fd "left").bind fun fs => (fs.take 4).get? c) ∧
    batchSheetCell fd 2 c = ((alookup fd "up").bind fun fs => (fs.take 4).get? c) ∧
    batchSheetCell fd 3 c = ((alookup fd "right").bind fun fs => (fs.take 4).get? c) :=
  ⟨rfl, rfl, rfl, rfl, rfl, rfl, rfl, rfl⟩

/-- C8: batch generation is deterministic in the seed.  The embedding
is pure, so the only way two `generate_batch` calls with the same
arguments could differ is through the module-global `_batch_counter`
left over from earlier calls; since `generate_batch` resets that
counter before sampling, its result — the full list of NPC definitions,
ids, layers and sampled palettes — is identical whatever the pre-call
counter value, i.e. it is a function of `(config, count, seed)` alone. -/
theorem claim_C8 (pre1 pre2 : Nat) (cfg : GeneratorConfig)
    (count seed : Nat) :
    generate_batch pre1 cfg count seed = generate_batch pre2 cfg count seed ∧
    generate_batch pre1 cfg count seed
      = (generateBatchRun cfg count seed).map Prod.fst :=
  ⟨rfl, rfl⟩

theorem rngChoice_exists {α : Type} {l : List α} (hl : l ≠ []) (r : Rng) :
    ∃ x r', rngChoice l r = some (x, r') := by
  unfold rngChoice
  rw [dif_neg (fun h => hl (List.length_eq_zero.mp h))]
  exact ⟨_, _, rfl⟩

theorem generate_random_npc_success (cfg : GeneratorConfig)
    (hp : poolsNonempty cfg) (rng : Rng) (counter : Nat) :
    ∃ npc rng', generate_random_npc cfg rng counter
        = some (npc, rng', counter + 1) ∧
      npc.npc_id = cfg.generator_id.getD "npc" ++ "_" ++ padZeros3 (counter + 1) := by
  obtain ⟨h1, h2, h3, h4, h5, h6, h7, h8⟩ := hp
  obtain ⟨body, r1, hb⟩ := rngChoice_exists h1 rng
  obtain ⟨clothing, r2, hc⟩ := rngChoice_exists h2 r1
  obtain ⟨hair, r3, hh⟩ := rngChoice_exists h3 r2
  obtain ⟨accessory, r4, hacc⟩ := rngChoice_exists h4 r3
  obtain ⟨skinP, r5, hsp⟩ := rngChoice_exists h5 r4
  obtain ⟨hairP, r6, hhp⟩ := rngChoice_exists h6 r5
  obtain ⟨clothP, r7, hcp⟩ := rngChoice_exists h7 r6
  obtain ⟨accP, r8, hap⟩ := rngChoice_exists h8 r7
  refine ⟨buildNpc cfg (counter + 1) body clothing hair accessory skinP hairP
    clothP accP, r8, ?_, rfl⟩
  simp [generate_random_npc, hb, hc, hh, hacc, hsp, hhp, hcp, hap]

theorem generate_random_npc_some (cfg : GeneratorConfig) (rng : Rng)
    (counter : Nat) (npc : Npc) (rng' : Rng) (counter' : Nat)
    (h : generate_random_npc cfg rng counter = some (npc, rng', counter')) :
    counter' = counter + 1 ∧
      npc.npc_id = cfg.generator_id.getD "npc" ++ "_" ++ padZeros3 (counter + 1) := by
  simp only [generate_random_npc, bind, Option.bind_eq_some, pure,
    Option.some.injEq] at h
  obtain ⟨⟨body, r1⟩, _, h⟩ := h
  obtain ⟨⟨clothing, r2⟩, _, h⟩ := h
  obtain ⟨⟨hair, r3⟩, _, h⟩ := h
  obtain ⟨⟨accessory, r4⟩, _, h⟩ := h
  obtain ⟨⟨skinP, r5⟩, _, h⟩ := h
  obtain ⟨⟨hairP, r6⟩, _, h⟩ := h
  obtain ⟨⟨clothP, r7⟩, _, h⟩ := h
  obtain ⟨⟨accP, r8⟩, _, h⟩ := h
  simp only [Prod.mk.injEq] at h
  obtain ⟨hnpc, _, hcounter⟩ := h
  subst hnpc
  subst hcounter
  exact ⟨rfl, rfl⟩

theorem generateBatchLoop_success (cfg : GeneratorConfig)
    (hp : poolsNonempty cfg) (count : Nat) :
    ∀ fuel rng counter npcs seen,
      (npcs.map npcSignature).Nodup →
      (∀ s ∈ npcs.map npcSignature, s ∈ seen) →
      npcs.length ≤ count →
      ∃ npcs' fuelLeft counter',
        generateBatchLoop cfg count fuel rng counter npcs seen
          = some (npcs', fuelLeft, counter') ∧
        (npcs'.map npcSignature).Nodup ∧ npcs'.length ≤ count := by
  intro fuel
  induction fuel with
  | zero =>
    intro rng counter npcs seen hnd _ hlen
    exact ⟨npcs, 0, counter, rfl, hnd, hlen⟩
  | succ fuel ih =>
    intro rng counter npcs seen hnd hseen hlen
    by_cases hcnt : npcs.length < count
    · obtain ⟨npc, rng', hgen, _⟩ :=
        generate_random_npc_success cfg hp rng counter
      by_cases hdup : npcSignature npc ∈ seen
      · obtain ⟨npcs', fuelLeft, counter', hloop, hnd', hlen'⟩ :=
          ih rng' (counter + 1 - 1) npcs seen hnd hseen hlen
        exact ⟨npcs', fuelLeft, counter', by
          simp only [generateBatchLoop, if_pos hcnt, hgen, if_pos hdup, hloop],
          hnd', hlen'⟩
      · have hnotin : npcSignature npc ∉ npcs.map npcSignature :=
          fun hmem => hdup (hseen _ hmem)
        obtain ⟨npcs', fuelLeft, counter', hloop, hnd', hlen'⟩ :=
          ih rng' (counter + 1) (npcs ++ [npc]) (npcSignature npc :: seen)
            (by simp only [List.map_append, List.map_cons, List.map_nil]
                exact List.Nodup.append hnd (List.nodup_singleton _)
                  (by simpa [List.disjoint_singleton] using hnotin))
            (by intro s hs
                simp only [List.map_append, List.map_cons, List.map_nil,
                  List.mem_append, List.mem_singleton] at hs
                rcases hs with hs | hs
                · exact List.mem_cons_of_mem _ (hseen s hs)
                · exact hs ▸ List.mem_cons_self _ _)
            (by simpa using hcnt)
        exact ⟨npcs', fuelLeft, counter', by
          simp only [generateBatchLoop, if_pos hcnt, hgen, if_neg hdup, hloop],
          hnd', hlen'⟩
    · exact ⟨npcs, fuel + 1, counter, by
        simp only [generateBatchLoop, if_neg hcnt], hnd, hlen⟩

theorem generateBatchLoop_ids (cfg : GeneratorConfig) (count : Nat) :
    ∀ fuel rng counter npcs seen npcsOut fuelLeft counterOut,
      generateBatchLoop cfg count fuel rng counter npcs seen
        = some (npcsOut, fuelLeft, counterOut) →
      counter = npcs.length →
      (∀ i (h : i < npcs.length), (npcs.get ⟨i, h⟩).npc_id
        = cfg.generator_id.getD "npc" ++ "_" ++ padZeros3 (i + 1)) →
      ∀ i (h : i < npcsOut.length), (npcsOut.get ⟨i, h⟩).npc_id
        = cfg.generator_id.getD "npc" ++ "_" ++ padZeros3 (i + 1) := by
  intro fuel
  induction fuel with
  | zero =>
    intro rng counter npcs seen npcsOut fuelLeft counterOut hloop _ hids
    simp only [generateBatchLoop, Option.some.injEq, Prod.mk.injEq] at hloop
    obtain ⟨h1, -, -⟩ := hloop
    exact h1 ▸ hids
  | succ fuel ih =>
    intro rng counter npcs seen npcsOut fuelLeft counterOut hloop hcnt hids
    by_cases hlt : npcs.length < count
    · cases hgen : generate_random_npc cfg rng counter with
      | none =>
        simp only [generateBatchLoop, if_pos hlt, hgen] at hloop
        cases hloop
      | some out =>
        obtain ⟨npc, rng', counter'⟩ := out
        obtain ⟨hc1, hid⟩ :=
          generate_random_npc_some cfg rng counter npc rng' counter' hgen
        by_cases hdup : npcSignature npc ∈ seen
        · simp only [generateBatchLoop, if_pos hlt, hgen, if_pos hdup] at hloop
          exact ih rng' (counter' - 1) npcs seen npcsOut fuelLeft counterOut
            hloop (by omega) hids
        · simp only [generateBatchLoop, if_pos hlt, hgen, if_neg hdup] at hloop
          refine ih rng' counter' (npcs ++ [npc]) (npcSignature npc :: seen)
            npcsOut fuelLeft counterOut hloop (by simp; omega) ?_
          intro i h
          simp only [List.get_eq_getElem]
          rcases Nat.lt_or_ge i npcs.length with hi | hi
          · rw [List.getElem_append_left hi]
            exact hids i hi
          · have hieq : i = npcs.length := by
              simp only [List.length_append, List.length_cons,
                List.length_nil] at h
              omega
            subst hieq
            rw [List.getElem_append_right (Nat.le_refl _)]
            simpa [hcnt] using hid
    · rw [generateBatchLoop, if_neg hlt] at hloop
      simp only [Option.some.injEq, Prod.mk.injEq] at hloop
      obtain ⟨h1, -, -⟩ := hloop
      exact h1 ▸ hids

/-- C9: `generate_batch` makes at most `count*10` generation attempts
(so it terminates), never emits two NPCs with the same
`(template, palette)` signature, and — whenever every sampling pool is
non-empty, so that no `rng.choice` raises — returns a (possibly
shorter) list normally rather than failing. -/
theorem claim_C9 (cfg : GeneratorConfig) (count seed : Nat)
    (hp : poolsNonempty cfg) :
    ∃ npcs attempts,
      generateBatchRun cfg count seed = some (npcs, attempts) ∧
      attempts ≤ count * 10 ∧
      (npcs.map npcSignature).Nodup ∧
      npcs.length ≤ count := by
  obtain ⟨npcs, fuelLeft, counter', hloop, hnd, hlen⟩ :=
    generateBatchLoop_success cfg hp count (count * 10) (rngOfSeed seed) 0 [] []
      (by simp) (by simp) (Nat.zero_le _)
  exact ⟨npcs, count * 10 - fuelLeft, by simp [generateBatchRun, hloop],
    Nat.sub_le _ _, hnd, hlen⟩

/-- Witness for `claim_C9`: the all-defaults generator config, one NPC,
seed 42. -/
theorem claim_C9_witness :
    ∃ npcs attempts,
      generateBatchRun cfg0 1 42 = some (npcs, attempts) ∧
      attempts ≤ 1 * 10 ∧
      (npcs.map npcSignature).Nodup ∧
      npcs.length ≤ 1 :=
  claim_C9 cfg0 1 42 (by decide)

/-- C10: in every successful batch the emitted NPC ids are sequential
with no gaps — the `i`-th NPC (0-based `i`) of the returned list has
id `generator_id` + `"_"` + `i+1` zero-padded to three digits — because
the batch counter is decremented on every discarded duplicate. -/
theorem claim_C10 (pre : Nat) (cfg : GeneratorConfig) (count seed : Nat)
    (npcs : List Npc)
    (hrun : generate_batch pre cfg count seed = some npcs)
    (i : Nat) (h : i < npcs.length) :
    (npcs.get ⟨i, h⟩).npc_id
      = cfg.generator_id.getD "npc" ++ "_" ++ padZeros3 (i + 1) := by
  unfold generate_batch generateBatchRun at hrun
  cases hl : generateBatchLoop cfg count (count * 10) (rngOfSeed seed) 0 [] [] with
  | none => rw [hl] at hrun; cases hrun
  | some r =>
    obtain ⟨npcs0, fuelLeft, counter0⟩ := r
    rw [hl] at hrun
    simp only [Option.map_some', Option.some.injEq] at hrun
    subst hrun
    exact generateBatchLoop_ids cfg count (count * 10) (rngOfSeed seed) 0 [] []
      npcs0 fuelLeft counter0 hl rfl (by intro i h; cases h) i h

/-- Witness for `claim_C10`: the batch `generate_batch(cfg0, 1, seed=42)`
returns exactly `[npc42]` and its single NPC carries id `npc_001`. -/
theorem claim_C10_witness :
    ([npc42].get ⟨0, Nat.zero_lt_one⟩).npc_id
      = cfg0.generator_id.getD "npc" ++ "_" ++ padZeros3 (0 + 1) :=
  claim_C10 0 cfg0 1 42 [npc42] (by decide) 0 Nat.zero_lt_one

end SpriteEngine
